import Mathlib

/-!
Shallow embedding of the Static_site_generator markdown-to-HTML pipeline.

Python strings are modelled as Lean `String`, with the handful of Python
string primitives the code uses (`split`, `strip`, `startswith`, `endswith`,
`lstrip`, `join`, slicing) re-implemented over `List Char` so that every
definition is executable and structurally recursive.
-/

namespace SSG

/-- The set of characters Python's `str.strip()` removes (ASCII whitespace). -/
def pyIsSpace (c : Char) : Bool :=
  c == ' ' || c == '\t' || c == '\n' || c == '\r' || c == '\x0b' || c == '\x0c'

/-- `str.strip()` on a list of characters: drop whitespace from both ends. -/
def stripL (l : List Char) : List Char :=
  ((l.dropWhile pyIsSpace).reverse.dropWhile pyIsSpace).reverse

/-- Python `str.strip()`. -/
def pyStrip (s : String) : String := String.mk (stripL s.data)

/-- Scanner for Python `str.split(sep)` (non-empty `sep`): consume the input
one character at a time, accumulating the current fragment; whenever the
accumulated fragment ends with `sep`, cut: emit the fragment minus the `sep`
suffix and start a fresh fragment.  The first time the accumulated fragment
ends with `sep` is exactly the end of the leftmost occurrence of `sep`, so
this computes the usual leftmost non-overlapping split. -/
def pySplitAux (sep : List Char) (frag : List Char) : List Char → List (List Char)
  | [] => [frag]
  | c :: rest =>
    let frag2 := frag ++ [c]
    if sep.isSuffixOf frag2 then
      frag2.take (frag2.length - sep.length) :: pySplitAux sep [] rest
    else
      pySplitAux sep frag2 rest

/-- Python `s.split(sep)` for a non-empty separator `sep`. -/
def pysplit (sep s : String) : List String :=
  (pySplitAux sep.data [] s.data).map String.mk

/-- Python `s.startswith(pre)`. -/
def pyStartsWith (pre s : String) : Bool := pre.data.isPrefixOf s.data

/-- Python `s.endswith(suf)`. -/
def pyEndsWith (suf s : String) : Bool := suf.data.isSuffixOf s.data

/-- Python `str.lstrip(">")`: remove every leading `>` character. -/
def pyLstripGt (s : String) : String := String.mk (s.data.dropWhile (fun c => c == '>'))

/-- Python `str(x)` applied to an optional string (`None` prints as `"None"`). -/
def pyStr : Option String → String
  | none => "None"
  | some s => s

/-! ## textnode.py -/

/-- `TextType` enumeration members, identified by their enum values
(`textnode.py`).  Modelling the members as their distinct string values keeps
the type open, matching Python where a `TextNode`'s `text_type` field can in
principle hold something other than the six members. -/
def TextType.TEXT : String := "text"

/-- `TextType.BOLD` member. -/
def TextType.BOLD : String := "bold"

/-- `TextType.ITALIC` member. -/
def TextType.ITALIC : String := "italic"

/-- `TextType.CODE` member. -/
def TextType.CODE : String := "code"

/-- `TextType.LINK` member. -/
def TextType.LINK : String := "link"

/-- `TextType.IMAGE` member. -/
def TextType.IMAGE : String := "image"

/-- `TextNode` (`textnode.py`): a piece of inline text parsed from Markdown. -/
structure TextNode where
  text : String
  text_type : String
  url : Option String
deriving DecidableEq, Repr

/-! ## htmlnode.py -/

/-- The tree of concrete HTML nodes (`htmlnode.py`): `LeafNode` (optional tag,
required value, attributes) and `ParentNode` (required tag, ordered children,
attributes).  Attributes are an insertion-ordered association list. -/
inductive HTMLNode where
  | leaf (tag : Option String) (value : String) (props : List (String × String))
  | parent (tag : String) (children : List HTMLNode) (props : List (String × String))

/-- `HTMLNode.props_to_html`: space-prefixed, insertion-ordered
`name="value"` pairs (empty string when there are no attributes). -/
def props_to_html (props : List (String × String)) : String :=
  props.foldl (fun acc kv => acc ++ " " ++ kv.1 ++ "=\"" ++ kv.2 ++ "\"") ""

mutual

/-- `LeafNode.to_html` / `ParentNode.to_html`.  A leaf whose tag is falsy in
Python (`None` or the empty string) renders its raw value; otherwise
`<tag ATTRS>value</tag>`.  A parent renders `<tag ATTRS>` followed by its
children's serializations in order and `</tag>`. -/
def HTMLNode.to_html : HTMLNode → String
  | .leaf tag value props =>
    match tag with
    | none => value
    | some t =>
      if t = "" then value
      else "<" ++ t ++ props_to_html props ++ ">" ++ value ++ "</" ++ t ++ ">"
  | .parent tag children props =>
    "<" ++ tag ++ props_to_html props ++ ">" ++ HTMLNode.childrenHtml children
      ++ "</" ++ tag ++ ">"

/-- The `html_content` accumulation loop in `ParentNode.to_html`. -/
def HTMLNode.childrenHtml : List HTMLNode → String
  | [] => ""
  | c :: cs => c.to_html ++ HTMLNode.childrenHtml cs

end

/-- `LeafNode.__init__`: fails with `ValueError` when `value` is `None`. -/
def LeafNode.make (tag : Option String) (value : Option String)
    (props : List (String × String)) : Except String HTMLNode :=
  match value with
  | none => .error "invalid HTML: no value"
  | some v => .ok (.leaf tag v props)

/-- `ParentNode.__init__`: fails with `ValueError` when `tag` is `None` or
`children` is `None`. -/
def ParentNode.make (tag : Option String) (children : Option (List HTMLNode))
    (props : List (String × String)) : Except String HTMLNode :=
  match tag with
  | none => .error "invalid HTML: no tag"
  | some t =>
    match children with
    | none => .error "invalid HTML: no children"
    | some cs => .ok (.parent t cs props)

/-- `text_node_to_html_node` (`textnode.py`): dispatch on the six `TextType`
members; any other type raises `ValueError` naming the type.  The `LeafNode`
constructions never fail because a (possibly empty) value is always passed. -/
def text_node_to_html_node (n : TextNode) : Except String HTMLNode :=
  if n.text_type = TextType.TEXT then .ok (.leaf none n.text [])
  else if n.text_type = TextType.BOLD then .ok (.leaf (some "b") n.text [])
  else if n.text_type = TextType.ITALIC then .ok (.leaf (some "i") n.text [])
  else if n.text_type = TextType.CODE then .ok (.leaf (some "code") n.text [])
  else if n.text_type = TextType.LINK then
    .ok (.leaf (some "a") n.text [("href", pyStr n.url)])
  else if n.text_type = TextType.IMAGE then
    .ok (.leaf (some "img") "" [("src", pyStr n.url), ("alt", n.text)])
  else .error ("invalid text type: " ++ n.text_type)

/-! ## inline_markdown.py -/

/-- The per-node body of the loop in `split_nodes_delimiter`: non-plain nodes
are preserved as-is; a plain node's text is split on the delimiter (Python
`str.split` raises on an empty separator), an even fragment count raises, and
otherwise non-empty fragments become plain (even index) or `text_type`-typed
(odd index) nodes. -/
def processDelimNode (delimiter text_type : String) (node : TextNode) :
    Except String (List TextNode) :=
  if node.text_type ≠ TextType.TEXT then .ok [node]
  else if delimiter = "" then .error "empty separator"
  else
    let sections := pysplit delimiter node.text
    if sections.length % 2 = 0 then .error "Invalid markdown: Unmatched delimiter found"
    else .ok (sections.enum.filterMap (fun p =>
      if p.2 = "" then none
      else if p.1 % 2 = 0 then some ⟨p.2, TextType.TEXT, none⟩
      else some ⟨p.2, text_type, none⟩))

/-- `split_nodes_delimiter` (`inline_markdown.py`): process the nodes in
order, concatenating the per-node results; any raise aborts the whole call. -/
def split_nodes_delimiter (old_nodes : List TextNode) (delimiter : String)
    (text_type : String) : Except String (List TextNode) :=
  match old_nodes with
  | [] => .ok []
  | node :: rest => do
    let head ← processDelimNode delimiter text_type node
    let tail ← split_nodes_delimiter rest delimiter text_type
    return head ++ tail

/-- One attempted match of the image regex `!\[([^\[\]]*)\]\(([^\(\)]*)\)` at
the head of the input: `!`, `[`, a maximal bracket-free run (the alt text),
`]`, `(`, a maximal paren-free run (the url), `)`.  Returns alt text, url and
the remaining input on success. -/
def matchImageAt : List Char → Option (List Char × List Char × List Char)
  | '!' :: '[' :: rest =>
    let alt := rest.takeWhile (fun c => c ≠ '[' ∧ c ≠ ']')
    match rest.dropWhile (fun c => c ≠ '[' ∧ c ≠ ']') with
    | ']' :: '(' :: rest2 =>
      let url := rest2.takeWhile (fun c => c ≠ '(' ∧ c ≠ ')')
      match rest2.dropWhile (fun c => c ≠ '(' ∧ c ≠ ')') with
      | ')' :: rest3 => some (alt, url, rest3)
      | _ => none
    | _ => none
  | _ => none

/-- One attempted match of the link regex `(?<!!)\[([^\[\]]*)\]\(([^\(\)]*)\)`
at the head of the input (the lookbehind is checked by the caller). -/
def matchLinkAt : List Char → Option (List Char × List Char × List Char)
  | '[' :: rest =>
    let txt := rest.takeWhile (fun c => c ≠ '[' ∧ c ≠ ']')
    match rest.dropWhile (fun c => c ≠ '[' ∧ c ≠ ']') with
    | ']' :: '(' :: rest2 =>
      let url := rest2.takeWhile (fun c => c ≠ '(' ∧ c ≠ ')')
      match rest2.dropWhile (fun c => c ≠ '(' ∧ c ≠ ')') with
      | ')' :: rest3 => some (txt, url, rest3)
      | _ => none
    | _ => none
  | _ => none

/-- `re.findall` scan for the image pattern: try a match at each position,
left to right, skipping past each successful (non-overlapping) match.  The
fuel argument bounds the number of steps; every step consumes at least one
character, so `s.length` steps suffice. -/
def findImagesF : Nat → List Char → List (List Char × List Char)
  | 0, _ => []
  | fuel + 1, s =>
    match matchImageAt s with
    | some (alt, url, rest) => (alt, url) :: findImagesF fuel rest
    | none =>
      match s with
      | [] => []
      | _ :: rest => findImagesF fuel rest

/-- `re.findall` scan for the link pattern, threading the previous character
to implement the `(?<!!)` lookbehind. -/
def findLinksF : Nat → Option Char → List Char → List (List Char × List Char)
  | 0, _, _ => []
  | fuel + 1, prev, s =>
    match s with
    | [] => []
    | c :: rest =>
      if c = '[' ∧ prev ≠ some '!' then
        match matchLinkAt s with
        | some (txt, url, r) => (txt, url) :: findLinksF fuel (some ')') r
        | none => findLinksF fuel (some c) rest
      else findLinksF fuel (some c) rest

/-- `extract_markdown_images` (`inline_markdown.py`). -/
def extract_markdown_images (text : String) : List (String × String) :=
  (findImagesF text.data.length text.data).map (fun p => (String.mk p.1, String.mk p.2))

/-- `extract_markdown_links` (`inline_markdown.py`). -/
def extract_markdown_links (text : String) : List (String × String) :=
  (findLinksF text.data.length none text.data).map (fun p => (String.mk p.1, String.mk p.2))

/-- Python `s.split(pat, 1)` restricted to its two outcomes: `some (before,
after)` around the first occurrence of `pat`, or `none` when `pat` does not
occur (in which case `split` returns a one-element list). -/
def splitOnceL (pat : List Char) : List Char → Option (List Char × List Char)
  | [] => none
  | c :: rest =>
    if pat.isPrefixOf (c :: rest) then some ([], (c :: rest).drop pat.length)
    else
      match splitOnceL pat rest with
      | some (a, b) => some (c :: a, b)
      | none => none

/-- Python `s.split(pat, 1)` on strings (`none` when `pat` is absent). -/
def splitOnce (pat s : String) : Option (String × String) :=
  match splitOnceL pat.data s.data with
  | some (a, b) => some (String.mk a, String.mk b)
  | none => none

/-- The inner loop of `split_nodes_by_markdown_pattern`: peel off each
extracted `(text, url)` pair in order, splitting the remaining text on the
exact literal reconstruction of the matched pattern; emit the (non-empty)
text before the match as a plain node and the match itself as a typed node;
after the last pattern, emit any non-empty remaining text as a plain node. -/
def consumePatterns (pattern_type : String) (node_type : String)
    (patterns : List (String × String)) (text : String) :
    Except String (List TextNode) :=
  match patterns with
  | [] => .ok (if text ≠ "" then [⟨text, TextType.TEXT, none⟩] else [])
  | (content_text, url) :: ps =>
    let prefixStr := if node_type = TextType.IMAGE then "!" else ""
    let pattern_markdown := prefixStr ++ "[" ++ content_text ++ "](" ++ url ++ ")"
    match splitOnce pattern_markdown text with
    | none =>
      .error ("Invalid markdown: incomplete or malformed " ++ pattern_type
        ++ " pattern: " ++ pattern_markdown)
    | some (before_text, after) => do
      let rest ← consumePatterns pattern_type node_type ps after
      return (if before_text ≠ "" then [⟨before_text, TextType.TEXT, none⟩] else [])
        ++ [⟨content_text, node_type, some url⟩] ++ rest

/-- The per-node body of the loop in `split_nodes_by_markdown_pattern`:
non-plain nodes pass through unchanged, as do plain nodes in which the
extractor finds no pattern. -/
def processPatternNode (pattern_type : String) (extractor : String → List (String × String))
    (node_type : String) (old_node : TextNode) : Except String (List TextNode) :=
  if old_node.text_type ≠ TextType.TEXT then .ok [old_node]
  else
    let patterns := extractor old_node.text
    if patterns = [] then .ok [old_node]
    else consumePatterns pattern_type node_type patterns old_node.text

/-- `split_nodes_by_markdown_pattern` (`inline_markdown.py`). -/
def split_nodes_by_markdown_pattern (old_nodes : List TextNode) (pattern_type : String)
    (extractor : String → List (String × String)) (node_type : String) :
    Except String (List TextNode) :=
  match old_nodes with
  | [] => .ok []
  | node :: rest => do
    let head ← processPatternNode pattern_type extractor node_type node
    let tail ← split_nodes_by_markdown_pattern rest pattern_type extractor node_type
    return head ++ tail

/-- `split_nodes_image` (`inline_markdown.py`). -/
def split_nodes_image (old_nodes : List TextNode) : Except String (List TextNode) :=
  split_nodes_by_markdown_pattern old_nodes "Image" extract_markdown_images TextType.IMAGE

/-- `split_nodes_link` (`inline_markdown.py`). -/
def split_nodes_link (old_nodes : List TextNode) : Except String (List TextNode) :=
  split_nodes_by_markdown_pattern old_nodes "Link" extract_markdown_links TextType.LINK

/-- Modelled from the spec: `text_to_textnodes` is imported by
`markdown_blocks.py` from `inline_markdown.py` but its definition is not in
the sources; spec §4.3 fixes it as wrapping the raw text in a single plain
span and applying, in order, the bold (`**`), italic (`_`) and inline-code
(`` ` ``) delimiter stages, then image extraction, then link extraction. -/
def text_to_textnodes (text : String) : Except String (List TextNode) := do
  let nodes := [⟨text, TextType.TEXT, none⟩]
  let nodes ← split_nodes_delimiter nodes "**" TextType.BOLD
  let nodes ← split_nodes_delimiter nodes "_" TextType.ITALIC
  let nodes ← split_nodes_delimiter nodes "`" TextType.CODE
  let nodes ← split_nodes_image nodes
  let nodes ← split_nodes_link nodes
  return nodes

/-! ## markdown_blocks.py -/

/-- `BlockType` enumeration (`markdown_blocks.py`). -/
inductive BlockType where
  | paragraph
  | heading
  | code
  | quote
  | olist
  | ulist
deriving DecidableEq, Repr

/-- `markdown_to_blocks` (`markdown_blocks.py`): split the document on the
literal `"\n\n"`, strip each piece, and keep only the pieces that are
non-empty after stripping. -/
def markdown_to_blocks (markdown : String) : List String :=
  (pysplit "\n\n" markdown).filterMap (fun block =>
    if pyStrip block ≠ "" then some (pyStrip block) else none)

/-- The `for ... else` ordered-list check in `block_to_block_type`: every
line, 1-indexed, starts with `"{index}. "`. -/
def olistLinesOk (lines : List String) : Bool :=
  lines.enum.all (fun p => pyStartsWith (toString (p.1 + 1) ++ ". ") p.2)

/-- `block_to_block_type` (`markdown_blocks.py`): heading, code, quote,
unordered list, ordered list, tried in that order; paragraph as default. -/
def block_to_block_type (block : String) : BlockType :=
  let lines := pysplit "\n" block
  if pyStartsWith "# " block || pyStartsWith "## " block || pyStartsWith "### " block
      || pyStartsWith "#### " block || pyStartsWith "##### " block
      || pyStartsWith "###### " block then .heading
  else if lines.length ≥ 2 && pyStartsWith "```" (lines.headD "")
      && pyStartsWith "```" (lines.getLastD "") then .code
  else if lines.all (fun line => pyStartsWith ">" line) then .quote
  else if lines.all (fun line => pyStartsWith "- " line) then .ulist
  else if pyStartsWith "1. " (lines.headD "") && olistLinesOk lines then .olist
  else .paragraph

/-- `text_to_children` (`markdown_blocks.py`). -/
def text_to_children (text : String) : Except String (List HTMLNode) := do
  let text_nodes ← text_to_textnodes text
  text_nodes.mapM text_node_to_html_node

/-- `paragraph_to_html_node` (`markdown_blocks.py`). -/
def paragraph_to_html_node (block : String) : Except String HTMLNode := do
  let lines := pysplit "\n" block
  let paragraph := String.intercalate " " lines
  let children ← text_to_children paragraph
  return .parent "p" children []

/-- `heading_to_html_node` (`markdown_blocks.py`): count leading `#`s, fail
when nothing follows the marker, inline-split the rest, wrap in `h{level}`. -/
def heading_to_html_node (block : String) : Except String HTMLNode := do
  let level := (block.data.takeWhile (fun c => c = '#')).length
  if level + 1 ≥ block.length then
    .error ("invalid heading level: " ++ toString level)
  else
    let text := String.mk (block.data.drop (level + 1))
    let children ← text_to_children text
    return .parent ("h" ++ toString level) children []

/-- `code_to_html_node` (`markdown_blocks.py`): require the block string to
start and end with three backticks, take `block[4:-3]` as literal text, wrap
in `code` inside `pre`. -/
def code_to_html_node (block : String) : Except String HTMLNode := do
  if ¬ (pyStartsWith "```" block) ∨ ¬ (pyEndsWith "```" block) then
    .error "invalid code block"
  else
    let text := String.mk ((block.data.take (block.data.length - 3)).drop 4)
    let child ← text_node_to_html_node ⟨text, TextType.TEXT, none⟩
    return .parent "pre" [.parent "code" [child] []] []

/-- `olist_to_html_node` (`markdown_blocks.py`): strip the fixed 3-character
`"N. "` prefix from each line, inline-split, wrap each in `li`, all in `ol`. -/
def olist_to_html_node (block : String) : Except String HTMLNode := do
  let items := pysplit "\n" block
  let html_items ← items.mapM (fun item => do
    let text := String.mk (item.data.drop 3)
    let children ← text_to_children text
    return HTMLNode.parent "li" children [])
  return .parent "ol" html_items []

/-- `ulist_to_html_node` (`markdown_blocks.py`): strip the 2-character `"- "`
prefix from each line, inline-split, wrap each in `li`, all in `ul`. -/
def ulist_to_html_node (block : String) : Except String HTMLNode := do
  let items := pysplit "\n" block
  let html_items ← items.mapM (fun item => do
    let text := String.mk (item.data.drop 2)
    let children ← text_to_children text
    return HTMLNode.parent "li" children [])
  return .parent "ul" html_items []

/-- `quote_to_html_node` (`markdown_blocks.py`): fail when a line does not
start with `>`; otherwise remove every leading `>` (`str.lstrip(">")`), strip
whitespace, join the lines with single spaces, inline-split, wrap in
`blockquote`. -/
def quote_to_html_node (block : String) : Except String HTMLNode := do
  let lines := pysplit "\n" block
  let new_lines ← lines.mapM (fun line =>
    if ¬ pyStartsWith ">" line then
      Except.error "invalid quote block"
    else
      Except.ok (pyStrip (pyLstripGt line)))
  let content := String.intercalate " " new_lines
  let children ← text_to_children content
  return .parent "blockquote" children []

/-- `block_to_html_node` (`markdown_blocks.py`): classify and dispatch to the
per-type handler (the handler table covers every `BlockType`, so the
"Unsupported block type" raise is unreachable). -/
def block_to_html_node (block : String) : Except String HTMLNode :=
  match block_to_block_type block with
  | .paragraph => paragraph_to_html_node block
  | .heading => heading_to_html_node block
  | .code => code_to_html_node block
  | .olist => olist_to_html_node block
  | .ulist => ulist_to_html_node block
  | .quote => quote_to_html_node block

/-- `markdown_to_html_node` (`markdown_blocks.py`): segment into blocks,
convert each, wrap in a root `div`. -/
def markdown_to_html_node (markdown : String) : Except String HTMLNode := do
  let blocks := markdown_to_blocks markdown
  let children ← blocks.mapM block_to_html_node
  return .parent "div" children []

/-- The claim's description of what delimiter splitting does to one span:
non-plain spans are kept; a plain span's text is split on the delimiter, and
non-empty fragments become plain spans (even index) or target-typed spans
(odd index), in order.  (This is the success case; an even fragment count
fails instead.) -/
def delimSpecSplit (delimiter text_type : String) (n : TextNode) : List TextNode :=
  if n.text_type ≠ TextType.TEXT then [n]
  else (pysplit delimiter n.text).enum.filterMap (fun p =>
    if p.2 = "" then none
    else if p.1 % 2 = 0 then some ⟨p.2, TextType.TEXT, none⟩
    else some ⟨p.2, text_type, none⟩)

/-- The claim's reading of quote conversion: remove exactly one leading `>`
character from each line (rather than every leading `>`), then trim; used to
compare the claim's words against the code. -/
def quote_spec_single_strip (block : String) : Except String HTMLNode := do
  let lines := pysplit "\n" block
  let new_lines ← lines.mapM (fun line =>
    if ¬ pyStartsWith ">" line then
      Except.error "invalid quote block"
    else
      Except.ok (pyStrip (String.mk (line.data.drop 1))))
  let content := String.intercalate " " new_lines
  let children ← text_to_children content
  return .parent "blockquote" children []

/-- A string of `n` newline characters. -/
def nlStr (n : Nat) : String := String.mk (List.replicate n '\n')

/-! ## Claims -/

/-- C1: converting the document `"# Heading\n\nParagraph text"` segments it
into the two blocks `"# Heading"` and `"Paragraph text"`, converts them to an
`h1` and a `p` parent node wrapped in a single root `div` parent, and the
serialization of the result is exactly
`"<div><h1>Heading</h1><p>Paragraph text</p></div>"`. -/
theorem C1_round_trip :
    markdown_to_blocks "# Heading\n\nParagraph text" = ["# Heading", "Paragraph text"] ∧
    markdown_to_html_node "# Heading\n\nParagraph text" =
      .ok (.parent "div"
        [.parent "h1" [.leaf none "Heading" []] [],
         .parent "p" [.leaf none "Paragraph text" []] []] []) ∧
    (markdown_to_html_node "# Heading\n\nParagraph text").map HTMLNode.to_html =
      .ok "<div><h1>Heading</h1><p>Paragraph text</p></div>" :=
  ⟨by decide, by rfl, by rfl⟩

/-- C10: the block `"```\nx\n``` tail"` is classified as a Code block (two or
more lines, first and last line starting with three backticks), yet
`code_to_html_node` rejects it because the block string does not end with
three backticks, and whole-document conversion of that block fails with the
same error. -/
theorem C10_code_classification_gap :
    block_to_block_type "```\nx\n``` tail" = BlockType.code ∧
    code_to_html_node "```\nx\n``` tail" = .error "invalid code block" ∧
    markdown_to_html_node "```\nx\n``` tail" = .error "invalid code block" :=
  ⟨by decide, by rfl, by rfl⟩

/-- Appending strings with `foldl` out of an arbitrary initial accumulator
factors through the empty accumulator. -/
theorem foldl_append_factor (l : List String) :
    ∀ init : String, l.foldl (· ++ ·) init = init ++ l.foldl (· ++ ·) "" := by
  induction l with
  | nil => intro init; simp [List.foldl]
  | cons a l ih =>
    intro init
    simp only [List.foldl]
    rw [ih (init ++ a), ih ("" ++ a)]
    simp [String.append_assoc]

/-- `childrenHtml` is the concatenation, in order, of the children's
serializations. -/
theorem childrenHtml_eq_join (cs : List HTMLNode) :
    HTMLNode.childrenHtml cs = String.join (cs.map HTMLNode.to_html) := by
  induction cs with
  | nil => rfl
  | cons c cs ih =>
    simp only [HTMLNode.childrenHtml, List.map, String.join, List.foldl]
    rw [foldl_append_factor]
    simp only [String.join] at ih
    rw [ih]
    simp

/-- The `props_str` accumulation in `props_to_html` factors through the
empty accumulator. -/
theorem props_foldl_factor (ps : List (String × String)) :
    ∀ init : String,
      ps.foldl (fun acc kv => acc ++ " " ++ kv.1 ++ "=\"" ++ kv.2 ++ "\"") init =
        init ++ ps.foldl (fun acc kv => acc ++ " " ++ kv.1 ++ "=\"" ++ kv.2 ++ "\"") "" := by
  induction ps with
  | nil => intro init; simp [List.foldl]
  | cons kv ps ih =>
    intro init
    simp only [List.foldl]
    rw [ih (init ++ " " ++ kv.1 ++ "=\"" ++ kv.2 ++ "\""),
      ih ("" ++ " " ++ kv.1 ++ "=\"" ++ kv.2 ++ "\"")]
    simp [String.append_assoc]

/-- `props_to_html` is the concatenation of one space-prefixed
`name="value"` rendering per attribute, in order. -/
theorem props_to_html_eq_join (ps : List (String × String)) :
    props_to_html ps = String.join (ps.map (fun kv => " " ++ kv.1 ++ "=\"" ++ kv.2 ++ "\"")) := by
  induction ps with
  | nil => rfl
  | cons kv ps ih =>
    simp only [props_to_html, List.map, String.join, List.foldl] at *
    rw [props_foldl_factor, foldl_append_factor]
    rw [ih]
    simp [String.append_assoc]

/-- C8: node requirements are enforced at construction: a Leaf with an
absent value fails; a Parent with an absent tag fails; a Parent with an
absent children sequence fails; a Parent with a present-but-empty children
sequence is constructed successfully, and such a node (with no attributes)
serializes to `<tag></tag>`. -/
theorem C8_construction_checks :
    (∀ tag props, LeafNode.make tag none props = .error "invalid HTML: no value") ∧
    (∀ tag v props, LeafNode.make tag (some v) props = .ok (.leaf tag v props)) ∧
    (∀ children props, ParentNode.make none children props = .error "invalid HTML: no tag") ∧
    (∀ t props, ParentNode.make (some t) none props = .error "invalid HTML: no children") ∧
    (∀ t props, ParentNode.make (some t) (some []) props = .ok (.parent t [] props)) ∧
    (∀ t, (HTMLNode.parent t [] []).to_html = "<" ++ t ++ "></" ++ t ++ ">") := by
  refine ⟨fun _ _ => rfl, fun _ _ _ => rfl, fun _ _ => rfl, fun _ _ => rfl,
    fun _ _ => rfl, fun t => ?_⟩
  show "<" ++ t ++ props_to_html [] ++ ">" ++ HTMLNode.childrenHtml [] ++ "</" ++ t ++ ">"
    = "<" ++ t ++ "></" ++ t ++ ">"
  simp [props_to_html, HTMLNode.childrenHtml, String.append_assoc]

/-- C6: `text_node_to_html_node` maps each of the six span variants to
exactly the leaf the claim's table prescribes, and fails on any other
variant with an error identifying the invalid type. -/
theorem C6_span_to_leaf (n : TextNode) :
    (n.text_type = TextType.TEXT → text_node_to_html_node n = .ok (.leaf none n.text [])) ∧
    (n.text_type = TextType.BOLD →
      text_node_to_html_node n = .ok (.leaf (some "b") n.text [])) ∧
    (n.text_type = TextType.ITALIC →
      text_node_to_html_node n = .ok (.leaf (some "i") n.text [])) ∧
    (n.text_type = TextType.CODE →
      text_node_to_html_node n = .ok (.leaf (some "code") n.text [])) ∧
    (∀ u, n.text_type = TextType.LINK → n.url = some u →
      text_node_to_html_node n = .ok (.leaf (some "a") n.text [("href", u)])) ∧
    (∀ u, n.text_type = TextType.IMAGE → n.url = some u →
      text_node_to_html_node n = .ok (.leaf (some "img") "" [("src", u), ("alt", n.text)])) ∧
    (n.text_type ≠ TextType.TEXT → n.text_type ≠ TextType.BOLD →
      n.text_type ≠ TextType.ITALIC → n.text_type ≠ TextType.CODE →
      n.text_type ≠ TextType.LINK → n.text_type ≠ TextType.IMAGE →
      text_node_to_html_node n = .error ("invalid text type: " ++ n.text_type)) := by
  unfold text_node_to_html_node
  refine ⟨fun h => ?_, fun h => ?_, fun h => ?_, fun h => ?_,
    fun u h hu => ?_, fun u h hu => ?_, fun h1 h2 h3 h4 h5 h6 => ?_⟩ <;>
    simp_all [TextType.TEXT, TextType.BOLD, TextType.ITALIC, TextType.CODE,
      TextType.LINK, TextType.IMAGE, pyStr]

/-- C6 witness: a bold span at a concrete input. -/
theorem C6_span_to_leaf_witness :
    text_node_to_html_node ⟨"hi", "bold", none⟩ = .ok (.leaf (some "b") "hi" []) :=
  (C6_span_to_leaf ⟨"hi", "bold", none⟩).2.1 rfl

/-- C5 counterexample: a Leaf carrying the present-but-empty tag `""`
serializes to its raw value `"x"`, not to the claim's `<tag ATTRS>value</tag>`
form, which here would be `"<>x</>"`. -/
theorem C5_counterexample :
    (HTMLNode.leaf (some "") "x" []).to_html = "x" ∧
    ("x" : String) ≠ "<" ++ "" ++ props_to_html [] ++ ">" ++ "x" ++ "</" ++ "" ++ ">" :=
  ⟨rfl, by decide⟩

/-- C5 (amended): a Leaf with an absent tag — or with a present but empty
tag, which Python's falsy test treats identically — serializes to its value
unchanged with no escaping; a Leaf with a non-empty tag serializes to
`<tag ATTRS>value</tag>`; a Parent serializes to `<tag ATTRS>`, its
children's serializations in order, then `</tag>` (an empty children
sequence yielding `<tag ATTRS></tag>`); ATTRS is the space-prefixed,
insertion-ordered rendering of the attribute pairs, empty when there are
none. -/
theorem C5_serialize_amended :
    (∀ v props, (HTMLNode.leaf none v props).to_html = v) ∧
    (∀ v props, (HTMLNode.leaf (some "") v props).to_html = v) ∧
    (∀ t v props, t ≠ "" → (HTMLNode.leaf (some t) v props).to_html =
      "<" ++ t ++ props_to_html props ++ ">" ++ v ++ "</" ++ t ++ ">") ∧
    (∀ t cs props, (HTMLNode.parent t cs props).to_html =
      "<" ++ t ++ props_to_html props ++ ">" ++ String.join (cs.map HTMLNode.to_html)
        ++ "</" ++ t ++ ">") ∧
    (props_to_html [] = "") ∧
    (∀ ps, props_to_html ps =
      String.join (ps.map (fun kv => " " ++ kv.1 ++ "=\"" ++ kv.2 ++ "\""))) := by
  refine ⟨fun _ _ => rfl, fun _ _ => rfl, fun t v props ht => ?_,
    fun t cs props => ?_, rfl, props_to_html_eq_join⟩
  · simp [HTMLNode.to_html, ht]
  · simp [HTMLNode.to_html, childrenHtml_eq_join]

/-- C5 witness: a tagged leaf with one attribute at concrete inputs. -/
theorem C5_serialize_amended_witness :
    (HTMLNode.leaf (some "a") "x" [("href", "u")]).to_html =
      "<" ++ "a" ++ props_to_html [("href", "u")] ++ ">" ++ "x" ++ "</" ++ "a" ++ ">" :=
  C5_serialize_amended.2.2.1 "a" "x" [("href", "u")] (by decide)

/-- Monadic bind on `Except` applied to a success. -/
theorem except_bind_ok {ε α β : Type} (a : α) (f : α → Except ε β) :
    (Except.ok a >>= f) = f a := rfl

/-- Monadic bind on `Except` applied to a failure. -/
theorem except_bind_err {ε α β : Type} (e : ε) (f : α → Except ε β) :
    (Except.error e >>= f : Except ε β) = .error e := rfl

/-- `processDelimNode` either fails (plain span, even fragment count) or
returns exactly the claim's per-span output. -/
theorem processDelimNode_characterization (d tt : String) (hd : d ≠ "") (n : TextNode) :
    (n.text_type = TextType.TEXT → (pysplit d n.text).length % 2 = 0 →
      processDelimNode d tt n = .error "Invalid markdown: Unmatched delimiter found") ∧
    ((n.text_type = TextType.TEXT → (pysplit d n.text).length % 2 ≠ 0) →
      processDelimNode d tt n = .ok (delimSpecSplit d tt n)) := by
  constructor
  · intro ht he
    simp [processDelimNode, ht, hd, he]
  · intro h
    by_cases ht : n.text_type = TextType.TEXT
    · simp [processDelimNode, delimSpecSplit, ht, hd, h ht]
    · simp [processDelimNode, delimSpecSplit, ht]

/-- C2: for every list of spans, non-empty delimiter and target type:
if some plain span's text splits into an even number of fragments, the whole
call fails with the unmatched-delimiter error; otherwise the call succeeds
and returns, in order, the per-span outputs the claim describes (non-plain
spans kept; non-empty fragments at even indices as plain spans, at odd
indices as target-typed spans; empty fragments dropped). -/
theorem C2_delimiter_characterization (nodes : List TextNode) (d tt : String)
    (hd : d ≠ "") :
    ((∃ n ∈ nodes, n.text_type = TextType.TEXT ∧ (pysplit d n.text).length % 2 = 0) →
      split_nodes_delimiter nodes d tt = .error "Invalid markdown: Unmatched delimiter found") ∧
    ((∀ n ∈ nodes, n.text_type = TextType.TEXT → (pysplit d n.text).length % 2 ≠ 0) →
      split_nodes_delimiter nodes d tt = .ok (nodes.flatMap (delimSpecSplit d tt))) := by
  induction nodes with
  | nil =>
    exact ⟨fun h => absurd h (by simp), fun _ => rfl⟩
  | cons m rest ih =>
    constructor
    · rintro ⟨n, hn, ht, he⟩
      rcases List.mem_cons.mp hn with rfl | hmem
      · have hm := (processDelimNode_characterization d tt hd n).1 ht he
        simp [split_nodes_delimiter, hm, except_bind_err]
      · by_cases hbad : m.text_type = TextType.TEXT ∧ (pysplit d m.text).length % 2 = 0
        · have hm := (processDelimNode_characterization d tt hd m).1 hbad.1 hbad.2
          simp [split_nodes_delimiter, hm, except_bind_err]
        · have hm := (processDelimNode_characterization d tt hd m).2 (by tauto)
          have hrest := ih.1 ⟨n, hmem, ht, he⟩
          simp [split_nodes_delimiter, hm, except_bind_ok, hrest, except_bind_err]
    · intro h
      have hm := (processDelimNode_characterization d tt hd m).2
        (fun ht => h m (List.mem_cons_self m rest) ht)
      have hrest := ih.2 (fun n hn ht => h n (List.mem_cons_of_mem m hn) ht)
      simp [split_nodes_delimiter, hm, except_bind_ok, hrest, List.flatMap_cons]

/-- C2 witness: splitting one plain span on `"_"` with balanced delimiters. -/
theorem C2_delimiter_witness :
    split_nodes_delimiter [⟨"a_b_c", TextType.TEXT, none⟩] "_" TextType.ITALIC =
      .ok [⟨"a", TextType.TEXT, none⟩, ⟨"b", TextType.ITALIC, none⟩,
        ⟨"c", TextType.TEXT, none⟩] := by
  have h := (C2_delimiter_characterization [⟨"a_b_c", TextType.TEXT, none⟩] "_"
    TextType.ITALIC (by decide)).2 (by decide)
  rw [h]
  rfl

/-- `split_nodes_delimiter` distributes over list append. -/
theorem split_nodes_delimiter_append (d tt : String) (pre post : List TextNode) :
    split_nodes_delimiter (pre ++ post) d tt = do
      let a ← split_nodes_delimiter pre d tt
      let b ← split_nodes_delimiter post d tt
      return a ++ b := by
  induction pre with
  | nil =>
    show split_nodes_delimiter post d tt = _
    cases h : split_nodes_delimiter post d tt <;>
      simp [split_nodes_delimiter, except_bind_ok, except_bind_err]
  | cons p pre ih =>
    simp only [List.cons_append, split_nodes_delimiter, List.append_eq]
    rw [ih]
    cases hp : processDelimNode d tt p <;>
      cases h1 : split_nodes_delimiter pre d tt <;>
        cases h2 : split_nodes_delimiter post d tt <;>
          simp [except_bind_ok, except_bind_err, List.append_assoc]

/-- `split_nodes_by_markdown_pattern` distributes over list append. -/
theorem split_nodes_pattern_append (pt : String) (ex : String → List (String × String))
    (nt : String) (pre post : List TextNode) :
    split_nodes_by_markdown_pattern (pre ++ post) pt ex nt = do
      let a ← split_nodes_by_markdown_pattern pre pt ex nt
      let b ← split_nodes_by_markdown_pattern post pt ex nt
      return a ++ b := by
  induction pre with
  | nil =>
    show split_nodes_by_markdown_pattern post pt ex nt = _
    cases h : split_nodes_by_markdown_pattern post pt ex nt <;>
      simp [split_nodes_by_markdown_pattern, except_bind_ok, except_bind_err]
  | cons p pre ih =>
    simp only [List.cons_append, split_nodes_by_markdown_pattern, List.append_eq]
    rw [ih]
    cases hp : processPatternNode pt ex nt p <;>
      cases h1 : split_nodes_by_markdown_pattern pre pt ex nt <;>
        cases h2 : split_nodes_by_markdown_pattern post pt ex nt <;>
          simp [except_bind_ok, except_bind_err, List.append_assoc]

/-- C9: a non-plain span anywhere in the input is passed through unchanged,
at the same relative position, by the delimiter-splitting stage and by the
pattern-extraction stage (for any extractor, hence for both the image and the
link stage). -/
theorem C9_nonplain_passthrough (n : TextNode) (hn : n.text_type ≠ TextType.TEXT) :
    (∀ d tt pre post,
      split_nodes_delimiter (pre ++ n :: post) d tt = do
        let a ← split_nodes_delimiter pre d tt
        let b ← split_nodes_delimiter post d tt
        return a ++ [n] ++ b) ∧
    (∀ pt ex nt pre post,
      split_nodes_by_markdown_pattern (pre ++ n :: post) pt ex nt = do
        let a ← split_nodes_by_markdown_pattern pre pt ex nt
        let b ← split_nodes_by_markdown_pattern post pt ex nt
        return a ++ [n] ++ b) := by
  constructor
  · intro d tt pre post
    rw [split_nodes_delimiter_append d tt pre (n :: post)]
    have hproc : processDelimNode d tt n = .ok [n] := by
      simp [processDelimNode, hn]
    have hcons : split_nodes_delimiter (n :: post) d tt = do
        let b ← split_nodes_delimiter post d tt
        return [n] ++ b := by
      simp only [split_nodes_delimiter, hproc, except_bind_ok]
    rw [hcons]
    cases h1 : split_nodes_delimiter pre d tt <;>
      cases h2 : split_nodes_delimiter post d tt <;>
        simp [except_bind_ok, except_bind_err, List.append_assoc]
  · intro pt ex nt pre post
    rw [split_nodes_pattern_append pt ex nt pre (n :: post)]
    have hproc : processPatternNode pt ex nt n = .ok [n] := by
      simp [processPatternNode, hn]
    have hcons : split_nodes_by_markdown_pattern (n :: post) pt ex nt = do
        let b ← split_nodes_by_markdown_pattern post pt ex nt
        return [n] ++ b := by
      simp only [split_nodes_by_markdown_pattern, hproc, except_bind_ok]
    rw [hcons]
    cases h1 : split_nodes_by_markdown_pattern pre pt ex nt <;>
      cases h2 : split_nodes_by_markdown_pattern post pt ex nt <;>
        simp [except_bind_ok, except_bind_err, List.append_assoc]

/-- C9 witness: an image span survives a bold split unchanged between two
plain spans. -/
theorem C9_nonplain_passthrough_witness :
    split_nodes_delimiter [⟨"x", TextType.TEXT, none⟩, ⟨"pic", TextType.IMAGE, some "u"⟩,
        ⟨"y", TextType.TEXT, none⟩] "**" TextType.BOLD =
      .ok [⟨"x", TextType.TEXT, none⟩, ⟨"pic", TextType.IMAGE, some "u"⟩,
        ⟨"y", TextType.TEXT, none⟩] := by
  have h := (C9_nonplain_passthrough ⟨"pic", TextType.IMAGE, some "u"⟩ (by decide)).1
    "**" TextType.BOLD [⟨"x", TextType.TEXT, none⟩] [⟨"y", TextType.TEXT, none⟩]
  simp only [List.cons_append, List.nil_append] at h
  rw [h]
  rfl

/-- The split scanner always returns at least one fragment, and the first
fragment is a prefix of the accumulator followed by the input. -/
theorem pySplitAux_first_fragment (sep : List Char) :
    ∀ s frag : List Char, ∃ u tl,
      pySplitAux sep frag s = u :: tl ∧ u <+: frag ++ s := by
  intro s
  induction s with
  | nil =>
    intro frag
    exact ⟨frag, [], rfl, by simp⟩
  | cons c rest ih =>
    intro frag
    by_cases h : sep.isSuffixOf (frag ++ [c])
    · refine ⟨(frag ++ [c]).take ((frag ++ [c]).length - sep.length),
        pySplitAux sep [] rest, ?_, ?_⟩
      · simp [pySplitAux, h]
      · refine ⟨(frag ++ [c]).drop ((frag ++ [c]).length - sep.length) ++ rest, ?_⟩
        rw [← List.append_assoc, List.take_append_drop]
        simp
    · obtain ⟨u, tl, hu, hpre⟩ := ih (frag ++ [c])
      refine ⟨u, tl, ?_, ?_⟩
      · simp [pySplitAux, h, hu]
      · simpa using hpre

/-- `pysplit` always returns at least one line, and the first line is a
prefix of the input string. -/
theorem pysplit_first_fragment (sep s : String) :
    ∃ u tl, pysplit sep s = u :: tl ∧ u.data <+: s.data := by
  obtain ⟨u, tl, hu, hpre⟩ := pySplitAux_first_fragment sep.data s.data []
  exact ⟨String.mk u, tl.map String.mk, by simp [pysplit, hu], by simpa using hpre⟩

/-- A prefix of a list starting with `a` is empty or itself starts with `a`. -/
theorem prefix_head_cases {u : List Char} {a : Char} {ys : List Char}
    (h : u <+: a :: ys) : u = [] ∨ ∃ u', u = a :: u' := by
  cases u with
  | nil => exact Or.inl rfl
  | cons b bd =>
    obtain ⟨t, ht⟩ := h
    injection ht with h1 _
    exact Or.inr ⟨bd, by rw [h1]⟩

/-- C3: classification facts.  A block starting with seven `#` characters is
a Paragraph (seven or more `#`s never form a Heading, and no other type can
match such a block); a block classifies as OrderedList exactly when every
line, 1-indexed, starts with `"{index}. "` with no gaps (the first line thus
starting with `"1. "`); and the claim's two examples classify as OrderedList
and Paragraph respectively. -/
theorem C3_classification :
    (∀ block, pyStartsWith "#######" block = true →
      block_to_block_type block = BlockType.paragraph) ∧
    (∀ block, block_to_block_type block = BlockType.olist ↔
      olistLinesOk (pysplit "\n" block) = true) ∧
    block_to_block_type "1. x\n2. y" = BlockType.olist ∧
    block_to_block_type "1. x\n3. y" = BlockType.paragraph := by
  refine ⟨?_, ?_, by decide, by decide⟩
  · intro block hb
    obtain ⟨t, ht⟩ := List.isPrefixOf_iff_prefix.mp hb
    have hxs : block.data = '#' :: '#' :: '#' :: '#' :: '#' :: '#' :: '#' :: t := by
      rw [← ht]; rfl
    obtain ⟨u, tl, hl, hupre⟩ := pysplit_first_fragment "\n" block
    rw [hxs] at hupre
    have hhead : ∀ c : Char, ∀ pre : List Char, (c == '#') = false →
        (c :: pre).isPrefixOf u.data = false := by
      intro c pre hc
      rcases prefix_head_cases hupre with h | ⟨u', h⟩ <;>
        simp [h, List.isPrefixOf, hc]
    have h1 : pyStartsWith "# " block = false := by
      unfold pyStartsWith; rw [hxs]; rfl
    have h2 : pyStartsWith "## " block = false := by
      unfold pyStartsWith; rw [hxs]; rfl
    have h3 : pyStartsWith "### " block = false := by
      unfold pyStartsWith; rw [hxs]; rfl
    have h4 : pyStartsWith "#### " block = false := by
      unfold pyStartsWith; rw [hxs]; rfl
    have h5 : pyStartsWith "##### " block = false := by
      unfold pyStartsWith; rw [hxs]; rfl
    have h6 : pyStartsWith "###### " block = false := by
      unfold pyStartsWith; rw [hxs]; rfl
    have hcode : pyStartsWith "```" u = false := hhead '`' ['`', '`'] rfl
    have hquote : pyStartsWith ">" u = false := hhead '>' [] rfl
    have hulist : pyStartsWith "- " u = false := hhead '-' [' '] rfl
    have holist : pyStartsWith "1. " u = false := hhead '1' ['.', ' '] rfl
    simp [block_to_block_type, h1, h2, h3, h4, h5, h6, hcode, holist, hl,
      List.all_cons, hquote, hulist]
  · intro block
    constructor
    · intro h
      simp only [block_to_block_type] at h
      split_ifs at h with c1 c2 c3 c4 c5 <;> simp_all
    · intro ho
      obtain ⟨u, tl, hl, hupre⟩ := pysplit_first_fragment "\n" block
      rw [hl] at ho
      have h0 : pyStartsWith "1. " u = true := by
        have h := ho
        unfold olistLinesOk at h
        rw [List.enum_cons, List.all_cons] at h
        simp only [Bool.and_eq_true] at h
        simpa using h.1
      obtain ⟨u', hu'⟩ : ∃ u', u.data = '1' :: u' := by
        obtain ⟨t, ht⟩ := List.isPrefixOf_iff_prefix.mp h0
        exact ⟨'.' :: ' ' :: t, by rw [← ht]; rfl⟩
      obtain ⟨xs, hxs⟩ : ∃ xs, block.data = '1' :: xs := by
        obtain ⟨t, ht⟩ := hupre
        rw [← ht, hu']
        exact ⟨u' ++ t, rfl⟩
      have h1 : pyStartsWith "# " block = false := by
        unfold pyStartsWith; rw [hxs]; rfl
      have h2 : pyStartsWith "## " block = false := by
        unfold pyStartsWith; rw [hxs]; rfl
      have h3 : pyStartsWith "### " block = false := by
        unfold pyStartsWith; rw [hxs]; rfl
      have h4 : pyStartsWith "#### " block = false := by
        unfold pyStartsWith; rw [hxs]; rfl
      have h5 : pyStartsWith "##### " block = false := by
        unfold pyStartsWith; rw [hxs]; rfl
      have h6 : pyStartsWith "###### " block = false := by
        unfold pyStartsWith; rw [hxs]; rfl
      have hcode : pyStartsWith "```" u = false := by
        unfold pyStartsWith; rw [hu']; rfl
      have hquote : pyStartsWith ">" u = false := by
        unfold pyStartsWith; rw [hu']; rfl
      have hulist : pyStartsWith "- " u = false := by
        unfold pyStartsWith; rw [hu']; rfl
      simp [block_to_block_type, h1, h2, h3, h4, h5, h6, hl, List.all_cons,
        hcode, hquote, hulist, h0, ho]

/-- C3 witness: seven leading `#` characters classify as Paragraph, and the
ordered-list equivalence at a concrete two-line list. -/
theorem C3_classification_witness :
    block_to_block_type "####### x" = BlockType.paragraph ∧
    block_to_block_type "1. a\n2. b" = BlockType.olist :=
  ⟨C3_classification.1 "####### x" (by decide),
    (C3_classification.2.1 "1. a\n2. b").mpr (by decide)⟩

/-- `dropWhile` is idempotent. -/
theorem dropWhile_dropWhile (p : Char → Bool) :
    ∀ l : List Char, (l.dropWhile p).dropWhile p = l.dropWhile p := by
  intro l
  induction l with
  | nil => rfl
  | cons c l ih =>
    by_cases h : p c = true <;> simp [List.dropWhile_cons, h, ih]

/-- A list left unchanged by `dropWhile` leaves all of its prefixes
unchanged as well. -/
theorem dropWhile_eq_self_of_front (p : Char → Bool) {m t : List Char}
    (hm : m.dropWhile p = m) (ht : t <+: m) : t.dropWhile p = t := by
  cases t with
  | nil => rfl
  | cons a t' =>
    obtain ⟨w, hw⟩ := ht
    have hpa : p a = false := by
      by_contra hpa
      rw [Bool.not_eq_false] at hpa
      rw [← hw, List.cons_append, List.dropWhile_cons, if_pos hpa] at hm
      have hlen : ((t' ++ w).dropWhile p).length ≤ (t' ++ w).length :=
        (List.dropWhile_suffix p).sublist.length_le
      rw [hm] at hlen
      simp at hlen
    rw [List.dropWhile_cons, if_neg (by simp [hpa])]

/-- `stripL` is idempotent. -/
theorem stripL_idem (l : List Char) : stripL (stripL l) = stripL l := by
  set p := pyIsSpace
  have hm : (l.dropWhile p).dropWhile p = l.dropWhile p := dropWhile_dropWhile p l
  set m := l.dropWhile p with hmdef
  have hr : stripL l = ((m.reverse.dropWhile p).reverse : List Char) := rfl
  set r := (m.reverse.dropWhile p).reverse with hrdef
  have hr_pre : r <+: m := by
    have h1 : m.reverse.dropWhile p <:+ m.reverse := List.dropWhile_suffix p
    have h2 : (m.reverse.dropWhile p).reverse <+: m.reverse.reverse :=
      List.reverse_prefix.mpr h1
    simpa using h2
  have hr_dw : r.dropWhile p = r := dropWhile_eq_self_of_front p hm hr_pre
  have hr_rev : r.reverse.dropWhile p = r.reverse := by
    rw [hrdef, List.reverse_reverse]
    exact dropWhile_dropWhile p m.reverse
  show ((r.dropWhile p).reverse.dropWhile p).reverse = r
  rw [hr_dw, hr_rev, List.reverse_reverse]

/-- `pyStrip` is idempotent. -/
theorem pyStrip_idem (s : String) : pyStrip (pyStrip s) = pyStrip s := by
  show String.mk (stripL (String.mk (stripL s.data)).data) = String.mk (stripL s.data)
  rw [show (String.mk (stripL s.data)).data = stripL s.data from rfl, stripL_idem]

/-- The comprehension in `markdown_to_blocks` equals mapping `strip` over the
pieces and then filtering out the empties. -/
theorem markdown_to_blocks_eq_map_filter (md : String) :
    markdown_to_blocks md = ((pysplit "\n\n" md).map pyStrip).filter (fun b => b != "") := by
  show (pysplit "\n\n" md).filterMap _ = _
  induction pysplit "\n\n" md with
  | nil => rfl
  | cons x l ih =>
    simp only [ite_not] at ih ⊢
    by_cases h : pyStrip x = "" <;>
      simp [List.filterMap_cons, h, ih]

/-- Every block produced by `markdown_to_blocks` is non-empty and is its own
strip (hence is not whitespace-only). -/
theorem markdown_to_blocks_mem (md : String) (b : String)
    (hb : b ∈ markdown_to_blocks md) : b ≠ "" ∧ pyStrip b = b := by
  obtain ⟨a, _, ha⟩ := List.mem_filterMap.mp hb
  by_cases h : pyStrip a = ""
  · simp [h] at ha
  · simp only [h, if_neg, ite_not] at ha
    split at ha
    · simp_all
    · obtain rfl := Option.some.inj ha
      exact ⟨h, pyStrip_idem a⟩

/-- The blank-line separator never ends at a non-newline character. -/
theorem no_cut_at_non_newline (l : List Char) (c : Char) (hc : c ≠ '\n') :
    (['\n', '\n'].isSuffixOf (l ++ [c])) = false := by
  by_contra h
  rw [Bool.not_eq_false] at h
  obtain ⟨t, ht⟩ := List.isSuffixOf_iff_suffix.mp h
  have : (t ++ ['\n', '\n']).getLast? = (l ++ [c]).getLast? := by rw [ht]
  rw [show t ++ ['\n', '\n'] = (t ++ ['\n']) ++ ['\n'] by simp] at this
  rw [List.getLast?_concat, List.getLast?_concat] at this
  exact hc (Option.some.inj this).symm

/-- The blank-line separator does not end right after the first newline
following a newline-free accumulator. -/
theorem no_cut_first_newline (l : List Char) (hl : ∀ c ∈ l, c ≠ '\n') :
    (['\n', '\n'].isSuffixOf (l ++ ['\n'])) = false := by
  by_contra h
  rw [Bool.not_eq_false] at h
  obtain ⟨t, ht⟩ := List.isSuffixOf_iff_suffix.mp h
  rw [show t ++ ['\n', '\n'] = (t ++ ['\n']) ++ ['\n'] by simp] at ht
  have := List.append_cancel_right ht
  exact hl '\n' (this ▸ List.mem_append_right t (by simp)) rfl

/-- Scanning a newline-free chunk never cuts: it only extends the
accumulated fragment. -/
theorem pySplitAux_no_newline (a : List Char) (ha : ∀ c ∈ a, c ≠ '\n') :
    ∀ (frag rest : List Char),
      pySplitAux ['\n', '\n'] frag (a ++ rest) = pySplitAux ['\n', '\n'] (frag ++ a) rest := by
  induction a with
  | nil => intro frag rest; simp
  | cons c a' ih =>
    intro frag rest
    have hc : c ≠ '\n' := ha c (by simp)
    have hcut := no_cut_at_non_newline frag c hc
    show (if (['\n', '\n'].isSuffixOf (frag ++ [c])) = true then _ else _) = _
    rw [hcut]
    simp only [Bool.false_eq_true, if_false]
    show pySplitAux ['\n', '\n'] (frag ++ [c]) (a' ++ rest) = _
    rw [ih (fun x hx => ha x (List.mem_cons_of_mem c hx)) (frag ++ [c]) rest]
    simp [List.append_assoc]

/-- Scanning a run of newlines from an empty accumulator emits one empty
fragment per newline pair and carries a possible odd newline into the final
fragment. -/
theorem pySplitAux_newline_run :
    ∀ (m : Nat) (b : List Char), (∀ c ∈ b, c ≠ '\n') →
      pySplitAux ['\n', '\n'] [] (List.replicate m '\n' ++ b) =
        List.replicate (m / 2) [] ++ [List.replicate (m % 2) '\n' ++ b] := by
  intro m
  induction m using Nat.strong_induction_on with
  | _ m ih =>
    match m with
    | 0 =>
      intro b hb
      have := pySplitAux_no_newline b hb [] []
      simpa using this
    | 1 =>
      intro b hb
      have h0 : pySplitAux ['\n', '\n'] [] (List.replicate 1 '\n' ++ b) =
          pySplitAux ['\n', '\n'] ['\n'] b := rfl
      have h := pySplitAux_no_newline b hb ['\n'] []
      rw [List.append_nil] at h
      rw [h0, h]
      simp [pySplitAux]
    | m + 2 =>
      intro b hb
      have h0 : pySplitAux ['\n', '\n'] [] (List.replicate (m + 2) '\n' ++ b) =
          [] :: pySplitAux ['\n', '\n'] [] (List.replicate m '\n' ++ b) := rfl
      rw [h0, ih m (by omega) b hb]
      rw [Nat.add_div_right m (by norm_num), Nat.add_mod_right m 2, List.replicate_succ]
      rfl

/-- Scanning two newlines after a newline-free accumulated fragment cuts
exactly once, emitting the fragment. -/
theorem pySplitAux_first_cut (frag : List Char) (hfrag : ∀ c ∈ frag, c ≠ '\n')
    (m : Nat) (b : List Char) :
    pySplitAux ['\n', '\n'] frag (List.replicate (m + 2) '\n' ++ b) =
      frag :: pySplitAux ['\n', '\n'] [] (List.replicate m '\n' ++ b) := by
  show (if (['\n', '\n'].isSuffixOf (frag ++ ['\n'])) = true then _ else _) = _
  rw [no_cut_first_newline frag hfrag]
  simp only [Bool.false_eq_true, if_false]
  show (if (['\n', '\n'].isSuffixOf ((frag ++ ['\n']) ++ ['\n'])) = true then _ else _) = _
  rw [show (['\n', '\n'].isSuffixOf ((frag ++ ['\n']) ++ ['\n'])) = true from
    List.isSuffixOf_iff_suffix.mpr ⟨frag, by simp⟩]
  simp only [eq_self_iff_true, if_true]
  congr 1
  have hlen : ((frag ++ ['\n']) ++ ['\n']).length - ['\n', '\n'].length = frag.length := by
    simp
  rw [hlen, show (frag ++ ['\n']) ++ ['\n'] = frag ++ ['\n', '\n'] by simp, List.take_left]

/-- Stripping ignores a run of leading newlines. -/
theorem pyStrip_drop_newlines (j : Nat) (s : String) :
    pyStrip (String.mk (List.replicate j '\n' ++ s.data)) = pyStrip s := by
  have hdw : ∀ (jj : Nat) (l : List Char),
      (List.replicate jj '\n' ++ l).dropWhile pyIsSpace = l.dropWhile pyIsSpace := by
    intro jj
    induction jj with
    | zero => intro l; rfl
    | succ j ih =>
      intro l
      rw [List.replicate_succ, List.cons_append, List.dropWhile_cons,
        if_pos (by decide : pyIsSpace '\n' = true)]
      exact ih l
  show String.mk (stripL (List.replicate j '\n' ++ s.data)) = String.mk (stripL s.data)
  unfold stripL
  rw [hdw]

/-- Filtering out empties drops a run of empty strings. -/
theorem filterMap_strip_replicate_empty (j : Nat) :
    List.filterMap
      (fun block => if pyStrip block ≠ "" then some (pyStrip block) else none)
      (List.replicate j "") = [] := by
  induction j with
  | zero => rfl
  | succ j ih =>
    rw [List.replicate_succ, List.filterMap_cons]
    simp only [show pyStrip "" = "" from rfl]
    simpa using ih

/-- The canonical block list of a document made of two newline-free chunks
separated by at least two newlines: the stripped chunks, empties dropped,
independently of the exact number of separating newlines. -/
theorem markdown_to_blocks_two_chunks (a b : String) (n : Nat) (hn : 2 ≤ n)
    (ha : ∀ c ∈ a.data, c ≠ '\n') (hb : ∀ c ∈ b.data, c ≠ '\n') :
    markdown_to_blocks (a ++ nlStr n ++ b) =
      (if pyStrip a = "" then [] else [pyStrip a]) ++
      (if pyStrip b = "" then [] else [pyStrip b]) := by
  obtain ⟨k, rfl⟩ : ∃ k, n = k + 2 := ⟨n - 2, by omega⟩
  have hdata : (a ++ nlStr (k + 2) ++ b).data =
      a.data ++ (List.replicate (k + 2) '\n' ++ b.data) := by
    simp [String.data_append, nlStr]
  have hsplit : pySplitAux ['\n', '\n'] [] ((a ++ nlStr (k + 2) ++ b).data) =
      a.data :: (List.replicate (k / 2) [] ++ [List.replicate (k % 2) '\n' ++ b.data]) := by
    rw [hdata]
    rw [pySplitAux_no_newline a.data ha [] (List.replicate (k + 2) '\n' ++ b.data)]
    rw [List.nil_append]
    rw [pySplitAux_first_cut a.data ha k b.data]
    rw [pySplitAux_newline_run k b.data hb]
  show (pysplit "\n\n" (a ++ nlStr (k + 2) ++ b)).filterMap _ = _
  unfold pysplit
  rw [show ("\n\n" : String).data = ['\n', '\n'] from rfl]
  rw [hsplit]
  rw [List.map_cons, List.map_append, List.map_replicate, List.map_cons, List.map_nil]
  rw [List.filterMap_cons, List.filterMap_append, filterMap_strip_replicate_empty,
    List.filterMap_cons, List.filterMap_nil]
  rw [show String.mk a.data = a from rfl]
  rw [pyStrip_drop_newlines (k % 2) b]
  by_cases hA : pyStrip a = "" <;> by_cases hB : pyStrip b = "" <;>
    simp [hA, hB]

/-- C4: block segmentation splits the document on the literal two-newline
sequence, strips each piece and drops the pieces that strip to nothing, so no
returned block is empty or whitespace-only and order is preserved (the
map/filter characterization); separating two newline-free paragraphs with
`n ≥ 2` newlines yields the same block list as exactly two; and the empty
document and a pure-whitespace document yield no blocks. -/
theorem C4_block_segmentation :
    (∀ md, markdown_to_blocks md =
      ((pysplit "\n\n" md).map pyStrip).filter (fun b => b != "")) ∧
    (∀ md b, b ∈ markdown_to_blocks md → b ≠ "" ∧ pyStrip b = b) ∧
    (∀ (a b : String) (n : Nat), 2 ≤ n → (∀ c ∈ a.data, c ≠ '\n') →
      (∀ c ∈ b.data, c ≠ '\n') →
      markdown_to_blocks (a ++ nlStr n ++ b) = markdown_to_blocks (a ++ nlStr 2 ++ b)) ∧
    markdown_to_blocks "" = [] ∧
    markdown_to_blocks "\n\n   \n\n\t\n" = [] := by
  refine ⟨markdown_to_blocks_eq_map_filter, markdown_to_blocks_mem, ?_, by decide, by decide⟩
  intro a b n hn ha hb
  rw [markdown_to_blocks_two_chunks a b n hn ha hb,
    markdown_to_blocks_two_chunks a b 2 (le_refl 2) ha hb]

/-- C4 witness: four separating newlines give the same blocks as two, at a
concrete pair of paragraphs. -/
theorem C4_block_segmentation_witness :
    markdown_to_blocks ("P1" ++ nlStr 4 ++ "P2") =
      markdown_to_blocks ("P1" ++ nlStr 2 ++ "P2") ∧
    markdown_to_blocks ("P1" ++ nlStr 2 ++ "P2") = ["P1", "P2"] :=
  ⟨C4_block_segmentation.2.2.1 "P1" "P2" 4 (by decide) (by decide) (by decide), by decide⟩

/-- C7 counterexample: on the single-line quote block `">> hi"` (every line
starts with `>`), the code strips every leading `>`, producing
`<blockquote>hi</blockquote>`, while stripping only the one leading `>` as
the claim states would produce `<blockquote>> hi</blockquote>`. -/
theorem C7_counterexample :
    (quote_to_html_node ">> hi").map HTMLNode.to_html =
      .ok "<blockquote>hi</blockquote>" ∧
    (quote_spec_single_strip ">> hi").map HTMLNode.to_html =
      .ok "<blockquote>> hi</blockquote>" ∧
    ("<blockquote>hi</blockquote>" : String) ≠ "<blockquote>> hi</blockquote>" :=
  ⟨rfl, rfl, by decide⟩

/-- The `new_lines` loop of `quote_to_html_node` on lines that all start
with `>`. -/
theorem quote_lines_ok (lines : List String)
    (h : ∀ l ∈ lines, pyStartsWith ">" l = true) :
    lines.mapM (fun line =>
      if ¬ pyStartsWith ">" line then
        Except.error (ε := String) "invalid quote block"
      else
        Except.ok (pyStrip (pyLstripGt line))) =
    .ok (lines.map (fun line => pyStrip (pyLstripGt line))) := by
  induction lines with
  | nil => rfl
  | cons x ls ih =>
    rw [List.mapM_cons, if_neg (by simp [h x (List.mem_cons_self x ls)])]
    rw [ih (fun l hl => h l (List.mem_cons_of_mem x hl))]
    rfl

/-- The `new_lines` loop of `quote_to_html_node` fails when some line does
not start with `>`. -/
theorem quote_lines_bad (lines : List String)
    (h : ∃ l ∈ lines, pyStartsWith ">" l = false) :
    lines.mapM (fun line =>
      if ¬ pyStartsWith ">" line then
        Except.error (ε := String) "invalid quote block"
      else
        Except.ok (pyStrip (pyLstripGt line))) =
    .error "invalid quote block" := by
  induction lines with
  | nil => simp at h
  | cons x ls ih =>
    obtain ⟨l, hl, hfalse⟩ := h
    rw [List.mapM_cons]
    rcases List.mem_cons.mp hl with rfl | hmem
    · rw [if_pos (by simp [hfalse])]
      rfl
    · by_cases hx : pyStartsWith ">" x = true
      · rw [if_neg (by simp [hx]), except_bind_ok, ih ⟨l, hmem, hfalse⟩]
        rfl
      · rw [if_pos (by simpa using hx)]
        rfl

/-- C7 (amended): quote conversion, for a block whose every line starts with
`>`, strips every leading `>` character from each line (not just the first),
trims the result, joins the stripped lines with single spaces, inline-splits
the joined text and wraps the children in a `blockquote` parent; it fails
with an error as soon as some line does not start with `>`. -/
theorem C7_quote_amended :
    (∀ block, (∀ line ∈ pysplit "\n" block, pyStartsWith ">" line = true) →
      quote_to_html_node block = do
        let children ← text_to_children (String.intercalate " "
          ((pysplit "\n" block).map (fun line => pyStrip (pyLstripGt line))))
        return .parent "blockquote" children []) ∧
    (∀ block, (∃ line ∈ pysplit "\n" block, pyStartsWith ">" line = false) →
      quote_to_html_node block = .error "invalid quote block") := by
  constructor
  · intro block h
    show ((pysplit "\n" block).mapM _ >>= _) = _
    rw [quote_lines_ok (pysplit "\n" block) h, except_bind_ok]
  · intro block h
    show ((pysplit "\n" block).mapM _ >>= _) = _
    rw [quote_lines_bad (pysplit "\n" block) h, except_bind_err]

/-- C7 witness: a two-line quote block converts to a `blockquote` with the
joined stripped content. -/
theorem C7_quote_amended_witness :
    quote_to_html_node "> a\n> b" =
      .ok (.parent "blockquote" [.leaf none "a b" []] []) := by
  have h := C7_quote_amended.1 "> a\n> b" (by decide)
  rw [h]
  rfl

end SSG
